import Mathlib

/-!
Verification development for an NES emulator core (CPU 6502, PPU 2C02,
MMC3 mapper, bus/session glue).

Shallow embedding conventions:
* machine integers are `Nat`; a C cast or power-of-two mask is written as
  `% 2^w` (for example a `uint8_t` cast is `% 0x100`, `& 0x7FFF` is
  `% 0x8000`); masks that are not of the form `2^k - 1` are kept as `&&&`.
* byte arrays are embedded as functions `Nat → Nat` holding byte values,
  updated pointwise with `upd`; ROM/RAM images whose size matters
  (MMC3 PRG/CHR) are `List Nat`.
* C member functions become Lean functions from the state structure to the
  (result, new state); the enclosing objects reached through pointers
  (cartridge CHR data, controller, APU) are embedded as fields of the
  state they are read through.
-/

set_option maxRecDepth 8000

/-- Pointwise update of a byte map (array store `f[i] = v`). -/
def upd (f : Nat → Nat) (i v : Nat) : Nat → Nat :=
  fun j => if j = i then v else f j

/-- CPU-bus memory view used by the CPU embedding: a pure byte map.
Bus::cpuRead/cpuWrite are pure on the address ranges the CPU claims
exercise (internal RAM for the stack, cartridge ROM for fetches). -/
def Mem : Type := Nat → Nat

/-- Byte read through the bus: the bus returns a `uint8_t`. -/
def rd8 (m : Mem) (a : Nat) : Nat := m a % 0x100

/-- PPU state, from ppu.h: registers, loopy v/t/fineX/addrLatch, VRAM,
palette RAM, OAM, secondary OAM, PPUDATA read buffer, timing counters and
the NMI flag.  The cartridge reached through `cart` is embedded as the
CHR byte map `cartChr` (mapper ppuRead for addresses below $2000), the
`chrIsRAM` write gate (mapper_nrom.cpp ppuWrite), and the effective
mirroring value `mir` (cart->mapper->mirroring()).  Fields that no claim
touches (shifters, latches, line buffers, frame buffer) are omitted. -/
structure PPU where
  vram : Nat → Nat
  oam : Nat → Nat
  secOAM : Nat → Nat
  secCount : Nat
  palette : Nat → Nat
  PPUCTRL : Nat
  PPUMASK : Nat
  PPUSTATUS : Nat
  OAMADDR : Nat
  v : Nat
  t : Nat
  fineX : Nat
  addrLatch : Bool
  vramReadBuffer : Nat
  scanline : Nat
  dot : Nat
  frame_odd : Bool
  nmi_occurred : Bool
  cartChr : Nat → Nat
  chrIsRAM : Bool
  mir : Nat

/-- Embeds mapNT (ppu.cpp lines 38-56): map $2000-$2FFF into the 4 KiB
nametable VRAM honoring mirroring.  `(a - 0x2000) & 0x0FFF` on 16-bit
arithmetic is written `(a + 0xE000) % 0x1000`. -/
def mapNT (a mir : Nat) : Nat :=
  let nt := (a + 0xE000) % 0x1000
  let table := nt >>> 10
  let off := nt % 0x400
  if mir = 0 then (if table &&& 2 ≠ 0 then 0x400 else 0) + off
  else if mir = 1 then (if table &&& 1 ≠ 0 then 0x400 else 0) + off
  else if mir = 2 then off
  else if mir = 3 then 0x400 + off
  else if mir = 4 then table * 0x400 + off
  else (if table &&& 1 ≠ 0 then 0x400 else 0) + off

/-- Embeds PPU::ppuRead (ppu.cpp lines 65-78): CHR through the cartridge
below $2000, nametable VRAM through mapNT below $3F00, then palette RAM
with the $3F10/$3F14/$3F18/$3F1C mirrors, masked to 6 bits. -/
def PPU.ppuRead (s : PPU) (addr : Nat) : Nat :=
  let a := addr % 0x4000
  if a < 0x2000 then s.cartChr a
  else if a < 0x3F00 then s.vram (mapNT a s.mir)
  else
    let p := (a - 0x3F00) &&& 0x1F
    let p := if p &&& 0x13 = 0x10 then p &&& 0xFFEF else p
    s.palette p &&& 0x3F

/-- Embeds PPU::ppuWrite (ppu.cpp lines 80-99).  The cartridge branch
(addr below $2000) follows MapperNROM::ppuWrite: stored only when CHR is
RAM. -/
def PPU.ppuWrite (s : PPU) (addr val : Nat) : PPU :=
  let a := addr % 0x4000
  if a < 0x2000 then
    if s.chrIsRAM then { s with cartChr := upd s.cartChr a val } else s
  else if a < 0x3F00 then { s with vram := upd s.vram (mapNT a s.mir) val }
  else
    let p := (a - 0x3F00) &&& 0x1F
    let p := if p &&& 0x13 = 0x10 then p &&& 0xFFEF else p
    { s with palette := upd s.palette p val }

/-- Embeds PPU::incrementVRAMAddr (ppu.h): 32 when PPUCTRL bit 2 is set,
else 1. -/
def PPU.incrementVRAMAddr (s : PPU) : Nat :=
  if s.PPUCTRL &&& 0x04 ≠ 0 then 32 else 1

/-- Embeds PPU::cpuReadRegister (ppu.cpp lines 101-122): $2002 returns
status and clears vblank, the address latch and nmi_occurred; $2004
returns OAM at OAMADDR; $2007 is the buffered PPUDATA read that also
advances v; the write-only registers read 0. -/
def PPU.cpuReadRegister (s : PPU) (addr : Nat) : Nat × PPU :=
  let r := addr % 8
  if r = 2 then
    (s.PPUSTATUS,
     { s with PPUSTATUS := s.PPUSTATUS &&& 0x7F, addrLatch := false,
              nmi_occurred := false })
  else if r = 4 then (s.oam s.OAMADDR, s)
  else if r = 7 then
    let ret := s.vramReadBuffer
    let buf := s.ppuRead s.v
    let ret := if 0x3F00 ≤ s.v % 0x4000 then buf else ret
    (ret, { s with vramReadBuffer := buf,
                   v := (s.v + s.incrementVRAMAddr) % 0x8000 })
  else (0, s)

/-- Embeds PPU::cpuWriteRegister (ppu.cpp lines 124-164): PPUCTRL,
PPUMASK, OAMADDR, OAMDATA with post-increment, the two-write PPUSCROLL
and PPUADDR sequences over t/fineX/addrLatch, and PPUDATA writes that
advance v. -/
def PPU.cpuWriteRegister (s : PPU) (addr val : Nat) : PPU :=
  let r := addr % 8
  if r = 0 then
    { s with PPUCTRL := val, t := (s.t &&& 0xF3FF) ||| ((val &&& 3) <<< 10) }
  else if r = 1 then { s with PPUMASK := val }
  else if r = 3 then { s with OAMADDR := val }
  else if r = 4 then
    { s with oam := upd s.oam s.OAMADDR val, OAMADDR := (s.OAMADDR + 1) % 0x100 }
  else if r = 5 then
    if !s.addrLatch then
      { s with fineX := val &&& 7,
               t := (s.t &&& 0x7FE0) ||| ((val >>> 3) &&& 0x1F),
               addrLatch := true }
    else
      { s with t := (s.t &&& 0x0C1F) ||| ((val &&& 0x07) <<< 12) |||
                    ((val &&& 0xF8) <<< 2),
               addrLatch := false }
  else if r = 6 then
    if !s.addrLatch then
      { s with t := (s.t &&& 0x00FF) ||| ((val &&& 0x3F) <<< 8),
               addrLatch := true }
    else
      let t2 := (s.t &&& 0x7F00) ||| val
      { s with t := t2, v := t2, addrLatch := false }
  else if r = 7 then
    let s2 := s.ppuWrite s.v val
    { s2 with v := (s2.v + s2.incrementVRAMAddr) % 0x8000 }
  else s

/-- Embeds PPU::setVBlank (ppu.cpp lines 178-181). -/
def PPU.setVBlank (s : PPU) : PPU :=
  { s with PPUSTATUS := s.PPUSTATUS ||| 0x80, nmi_occurred := true }

/-- Embeds PPU::nmi_output (ppu.h): PPUCTRL bit 7. -/
def PPU.nmiOutput (s : PPU) : Bool := s.PPUCTRL &&& 0x80 ≠ 0

/-- Copy of one 4-byte OAM entry i into secondary OAM slot `found`
(the memcpy in PPU::evaluateSpritesWindow). -/
def copy4 (sec : Nat → Nat) (found : Nat) (oam : Nat → Nat) (i : Nat) :
    Nat → Nat :=
  upd (upd (upd (upd sec (4 * found) (oam (4 * i)))
    (4 * found + 1) (oam (4 * i + 1)))
    (4 * found + 2) (oam (4 * i + 2)))
    (4 * found + 3) (oam (4 * i + 3))

/-- Embeds PPU::evaluateSpritesWindow (ppu.cpp lines 243-267): linear
scan of the 64 primary OAM entries, selecting at most 8 whose Y range
covers the scanline into secondary OAM; afterwards secCount = found and
PPUSTATUS bit 5 is set when found >= 8.  The C loop `i < 64 && found < 8`
becomes a fold whose body is a no-op once found reaches 8. -/
def PPU.evaluateSpritesWindow (s : PPU) : PPU :=
  if 240 ≤ s.scanline then s
  else
    let s1 := if s.secCount = 0 then { s with secOAM := fun _ => 0xFF } else s
    let sprH := if s1.PPUCTRL &&& 0x20 ≠ 0 then 16 else 8
    let fs := (List.range 64).foldl
      (fun (acc : Nat × (Nat → Nat)) i =>
        if acc.1 < 8 then
          let y := s1.oam (4 * i)
          if y + 1 ≤ s1.scanline ∧ s1.scanline < y + 1 + sprH then
            (acc.1 + 1, copy4 acc.2 acc.1 s1.oam i)
          else acc
        else acc)
      (0, s1.secOAM)
    { s1 with secCount := fs.1, secOAM := fs.2,
              PPUSTATUS := if 8 ≤ fs.1 then s1.PPUSTATUS ||| 0x20
                           else s1.PPUSTATUS }

/-- Specification-side count of OAM entries whose Y range covers the
scanline (how many sprites fall on the line). -/
def inRangeCount (oam : Nat → Nat) (scanline sprH : Nat) : Nat :=
  ((List.range 64).filter
    (fun i => decide (oam (4 * i) + 1 ≤ scanline ∧
                      scanline < oam (4 * i) + 1 + sprH))).length

/-- First k steps of the OAM DMA store loop of PPU::oamDMA:
`oam[(uint8_t)(start + i)] = fetch256(i)` for i below k. -/
def oamFoldN (k : Nat) (f : Nat → Nat) (start : Nat) (fetch : Nat → Nat) :
    Nat → Nat :=
  (List.range k).foldl (fun acc i => upd acc ((start + i) % 0x100) (fetch i)) f

/-- Embeds PPU::oamDMA (ppu.cpp lines 166-172): 256 stores through the
fetch callback, starting at OAMADDR with 8-bit wrap; no other PPU state
is touched (OAMADDR itself is read once and left unchanged). -/
def PPU.oamDMA (s : PPU) (fetch256 : Nat → Nat) : PPU :=
  { s with oam := oamFoldN 256 s.oam s.OAMADDR fetch256 }

/-- CPU state, from cpu.h: registers, cycle counter, interrupt latches,
the IRQ inhibit delay and the OAM DMA stall counter. -/
structure CPU where
  A : Nat
  X : Nat
  Y : Nat
  S : Nat
  P : Nat
  PC : Nat
  cycles : Nat
  pending_nmi : Bool
  pending_irq : Bool
  irq_delay : Nat
  dma_stall_cycles : Nat

/-- Status flag bit positions (cpu.h enum Flag). -/
def flagC : Nat := 0
/-- Z flag bit position. -/
def flagZ : Nat := 1
/-- I flag bit position. -/
def flagI : Nat := 2
/-- D flag bit position. -/
def flagD : Nat := 3
/-- B flag bit position. -/
def flagB : Nat := 4
/-- U flag bit position. -/
def flagU : Nat := 5
/-- V flag bit position. -/
def flagV : Nat := 6
/-- N flag bit position. -/
def flagN : Nat := 7

/-- Embeds CPU::getf: bit f of P. -/
def CPU.getf (c : CPU) (f : Nat) : Bool := (c.P >>> f) % 2 = 1

/-- Embeds CPU::setf: set or clear bit f of P (P is a uint8_t, so
clearing masks to 8 bits). -/
def CPU.setf (c : CPU) (f : Nat) (b : Bool) : CPU :=
  if b then { c with P := c.P ||| (1 <<< f) }
  else { c with P := c.P &&& (0xFF - (1 <<< f)) }

/-- Embeds the setZN8 helper of CPU::exec: Z from v == 0, N from bit 7. -/
def CPU.setZN8 (c : CPU) (v : Nat) : CPU :=
  (c.setf flagZ (v = 0)).setf flagN (v &&& 0x80 ≠ 0)

/-- Embeds CPU::push8 (cpu.cpp lines 21-24): write to $0100|S, then
decrement S with 8-bit wrap. -/
def CPU.push8 (c : CPU) (m : Mem) (v : Nat) : CPU × Mem :=
  ({ c with S := (c.S + 0xFF) % 0x100 }, upd m (0x0100 ||| c.S) v)

/-- Embeds CPU::pull8 (cpu.cpp lines 25-28): increment S with 8-bit
wrap, then read from $0100|S. -/
def CPU.pull8 (c : CPU) (m : Mem) : Nat × CPU :=
  let s1 := (c.S + 1) % 0x100
  (rd8 m (0x0100 ||| s1), { c with S := s1 })

/-- Embeds the fetch8 helper of CPU::exec: read the byte at PC and
post-increment PC (uint16_t wrap). -/
def CPU.fetch8 (c : CPU) (m : Mem) : Nat × CPU :=
  (rd8 m c.PC, { c with PC := (c.PC + 1) % 0x10000 })

/-- Embeds case 0x08 (PHP) of CPU::exec (cpu.cpp lines 897-900): push
P with bit 4 forced set; 3 cycles. -/
def CPU.execPHP (c : CPU) (m : Mem) : CPU × Mem × Nat :=
  let pm := c.push8 m ((c.P ||| 0x10) % 0x100)
  (pm.1, pm.2, 3)

/-- Embeds case 0x28 (PLP) of CPU::exec (cpu.cpp lines 901-907): pull
the status byte, clear bit 4, force bit 5, set the one-instruction IRQ
delay, then run setZN8(A); 4 cycles. -/
def CPU.execPLP (c : CPU) (m : Mem) : CPU × Mem × Nat :=
  let pc1 := c.pull8 m
  let c1 := { pc1.2 with P := (pc1.1 &&& 0xEF) ||| 0x20, irq_delay := 1 }
  (c1.setZN8 c1.A, m, 4)

/-- PHP immediately followed by PLP (the round trip of the claim),
composing the two exec cases on the same memory. -/
def CPU.phpThenPlp (c : CPU) (m : Mem) : CPU :=
  let r1 := c.execPHP m
  (r1.1.execPLP r1.2.1).1

/-- Embeds the branch lambda of CPU::exec (cpu.cpp lines 103-113): fetch
the signed offset; if taken, one extra cycle, plus another when the
post-branch PC is on a different page from the post-operand PC.  The
int8 offset added to the uint16 PC is `(PC + off + (off < 0 ? -0x100 :
0)) mod 2^16`, written with + 0xFF00. -/
def CPU.branch (c : CPU) (m : Mem) (cond : Bool) : CPU × Nat :=
  let fc := c.fetch8 m
  let off := fc.1
  let c1 := fc.2
  if cond then
    let old := c1.PC
    let npc := (c1.PC + off + (if 0x80 ≤ off then 0xFF00 else 0)) % 0x10000
    let add := 3 + (if old &&& 0xFF00 ≠ npc &&& 0xFF00 then 1 else 0)
    ({ c1 with PC := npc }, add)
  else (c1, 2)

/-- Embeds case 0xF0 (BEQ) of CPU::exec (cpu.cpp lines 827-828):
branch when the Z flag is set. -/
def CPU.execBEQ (c : CPU) (m : Mem) : CPU × Nat :=
  c.branch m (c.getf flagZ)

/-- Embeds CPU::reset (cpu.cpp lines 31-42): PC from the $FFFC/$FFFD
little-endian vector; A=X=Y=0, S=$FD, P=$24; cycles, pending_irq,
pending_nmi and dma_stall_cycles cleared.  The source does not touch
irq_delay, and neither does this embedding. -/
def CPU.reset (c : CPU) (m : Mem) : CPU :=
  let lo := rd8 m 0xFFFC
  let hi := rd8 m 0xFFFD
  { c with PC := lo ||| (hi <<< 8), A := 0, X := 0, Y := 0, S := 0xFD,
           P := 0x24, cycles := 0, pending_irq := false, pending_nmi := false,
           dma_stall_cycles := 0 }

/-- Embeds the DMA-stall branch of CPU::step (cpu.cpp lines 988-993),
which step takes exactly when dma_stall_cycles is nonzero: decrement the
stall counter, count one cycle, return 1 without fetching anything. -/
def CPU.stepStall (c : CPU) : CPU × Nat :=
  ({ c with dma_stall_cycles := c.dma_stall_cycles - 1,
            cycles := c.cycles + 1 }, 1)

/-- MMC3 mapper state, from mapper_mmc3.h: PRG/CHR images, PRG RAM,
bank registers, modes, IRQ counter state and the A12 edge filter. -/
structure MMC3 where
  prg : List Nat
  chr : List Nat
  prgRAM : List Nat
  chrIsRAM : Bool
  mir : Nat
  bankSelect : Nat
  bank : Nat → Nat
  prgMode : Bool
  chrMode : Bool
  prgRAMEnable : Nat
  irqLatch : Nat
  irqCounter : Nat
  irqEnable : Bool
  irqReload : Bool
  irqFlag : Bool
  prevA12 : Bool
  a12LowCycles : Nat
  sawRiseThisLine : Bool

/-- Embeds MapperMMC3::cpuWrite (mapper_mmc3.cpp lines 56-98): PRG-RAM
writes gated by the enable/protect bits, then the eight registers
decoded by addr & $E001. -/
def MMC3.cpuWrite (s : MMC3) (a v : Nat) : MMC3 :=
  if 0x6000 ≤ a ∧ a < 0x8000 then
    if s.prgRAMEnable &&& 0x80 ≠ 0 ∧ s.prgRAMEnable &&& 0x40 = 0 then
      { s with prgRAM := s.prgRAM.set (a - 0x6000) v }
    else s
  else if a < 0x8000 then s
  else
    let d := a &&& 0xE001
    if d = 0x8000 then
      { s with bankSelect := v &&& 0x07, prgMode := v &&& 0x40 ≠ 0,
               chrMode := v &&& 0x80 ≠ 0 }
    else if d = 0x8001 then
      let idx := s.bankSelect &&& 7
      let val := if idx ≤ 1 then v &&& 0xFE else v
      { s with bank := upd s.bank idx val }
    else if d = 0xA000 then { s with mir := if v % 2 = 1 then 0 else 1 }
    else if d = 0xA001 then { s with prgRAMEnable := v }
    else if d = 0xC000 then { s with irqLatch := v }
    else if d = 0xC001 then { s with irqReload := true }
    else if d = 0xE000 then { s with irqEnable := false, irqFlag := false }
    else if d = 0xE001 then { s with irqEnable := true }
    else s

/-- The IRQ counter clock shared by MapperMMC3::ppuA12Clock and
MapperMMC3::ppuOnScanlineDot260 (the same five source lines appear at
mapper_mmc3.cpp lines 164-168 and 182-186): reload from the latch when
irq_reload is pending or the counter is zero, else decrement; then raise
irq_flag when the counter is zero and IRQs are enabled. -/
def MMC3.irqClockStep (s : MMC3) : MMC3 :=
  let s1 :=
    if s.irqReload then { s with irqCounter := s.irqLatch, irqReload := false }
    else if s.irqCounter = 0 then { s with irqCounter := s.irqLatch }
    else { s with irqCounter := s.irqCounter - 1 }
  if s1.irqCounter = 0 ∧ s1.irqEnable then { s1 with irqFlag := true } else s1

/-- Embeds MapperMMC3::ppuA12Clock (mapper_mmc3.cpp lines 158-175): a
low sample saturates the low-time counter at 64; a high sample on a
rising edge clocks the IRQ counter when the low phase lasted at least 8
dots, then resets the low-time counter. -/
def MMC3.ppuA12Clock (s : MMC3) (level : Bool) : MMC3 :=
  if !level then
    { s with a12LowCycles := if s.a12LowCycles < 64 then s.a12LowCycles + 1
                             else s.a12LowCycles,
             prevA12 := false }
  else
    let s1 :=
      if !s.prevA12 ∧ 8 ≤ s.a12LowCycles then
        { s.irqClockStep with sawRiseThisLine := true }
      else s
    { s1 with a12LowCycles := 0, prevA12 := true }

/-- Embeds MapperMMC3::ppuOnScanlineDot260 (mapper_mmc3.cpp lines
177-189): when rendering, synthesize one IRQ clock if no valid rise was
seen this line; always clear the per-line flag. -/
def MMC3.ppuOnScanlineDot260 (s : MMC3) (rendering : Bool) : MMC3 :=
  if !rendering then { s with sawRiseThisLine := false }
  else
    let s1 := if !s.sawRiseThisLine then s.irqClockStep else s
    { s1 with sawRiseThisLine := false }

/-- Embeds the prgBankAddr helper (mapper_mmc3.cpp lines 4-9): reduce
the bank number modulo the bank count and the final byte offset modulo
the PRG size. -/
def prgBankAddr (prg : List Nat) (bank off : Nat) : Nat :=
  if prg.length = 0 then 0
  else
    let bankCount := prg.length / 0x2000
    let b := if bankCount ≠ 0 then bank % bankCount else 0
    (b * 0x2000 + off % 0x2000) % prg.length

/-- Subtraction of 1 on uint32_t (the `prg.size()/0x2000 - 1` and
`last - 1` expressions wrap when the operand is 0). -/
def u32sub1 (n : Nat) : Nat := (n + 0xFFFFFFFF) % 0x100000000

/-- The PRG index computed by MapperMMC3::cpuRead for addresses at or
above $8000 (mapper_mmc3.cpp lines 27-52): window selection by address
range and prgMode, then prgBankAddr. -/
def MMC3.prgIndex (s : MMC3) (a : Nat) : Nat :=
  let off := a % 0x2000
  let b6 := s.bank 6 &&& 0x3F
  let b7 := s.bank 7 &&& 0x3F
  let last := u32sub1 (s.prg.length / 0x2000)
  if !s.prgMode then
    if a < 0xA000 then prgBankAddr s.prg b6 off
    else if a < 0xC000 then prgBankAddr s.prg b7 off
    else if a < 0xE000 then prgBankAddr s.prg (u32sub1 last) off
    else prgBankAddr s.prg last off
  else
    if a < 0xA000 then prgBankAddr s.prg (u32sub1 last) off
    else if a < 0xC000 then prgBankAddr s.prg b7 off
    else if a < 0xE000 then prgBankAddr s.prg b6 off
    else prgBankAddr s.prg last off

/-- Embeds MapperMMC3::cpuRead (mapper_mmc3.cpp lines 22-54): PRG RAM
at $6000-$7FFF, banked PRG ROM at $8000-$FFFF, $FF elsewhere. -/
def MMC3.cpuRead (s : MMC3) (a : Nat) : Nat :=
  if 0x6000 ≤ a ∧ a < 0x8000 then s.prgRAM.getD (a - 0x6000) 0
  else if 0x8000 ≤ a then s.prg.getD (s.prgIndex a) 0
  else 0xFF

/-- The CHR index computed by the rd1k/rd2k (and identical wr1k/wr2k)
helpers of MapperMMC3::ppuRead/ppuWrite (mapper_mmc3.cpp lines 100-156):
1 KiB and forced-even 2 KiB windows selected by chrMode, each offset
reduced modulo the CHR size. -/
def MMC3.chrIndex (s : MMC3) (a : Nat) : Nat :=
  let len := s.chr.length
  if !s.chrMode then
    if a < 0x0800 then ((s.bank 0 &&& 0xFE) * 0x400 + a % 0x800) % len
    else if a < 0x1000 then ((s.bank 1 &&& 0xFE) * 0x400 + a % 0x800) % len
    else (s.bank (2 + (a - 0x1000) / 0x400) * 0x400 + a % 0x400) % len
  else
    if a < 0x1000 then (s.bank (2 + a / 0x400) * 0x400 + a % 0x400) % len
    else if a < 0x1800 then ((s.bank 0 &&& 0xFE) * 0x400 + a % 0x800) % len
    else ((s.bank 1 &&& 0xFE) * 0x400 + a % 0x800) % len

/-- Embeds MapperMMC3::ppuRead (mapper_mmc3.cpp lines 100-128). -/
def MMC3.ppuRead (s : MMC3) (a : Nat) : Nat :=
  if 0x2000 ≤ a then 0 else s.chr.getD (s.chrIndex a) 0

/-- Embeds MapperMMC3::ppuWrite (mapper_mmc3.cpp lines 130-156). -/
def MMC3.ppuWrite (s : MMC3) (a v : Nat) : MMC3 :=
  if 0x2000 ≤ a ∨ !s.chrIsRAM then s
  else { s with chr := s.chr.set (s.chrIndex a) v }

/-- Feed a list of per-dot A12 level samples to the mapper. -/
def MMC3.runA12 (s : MMC3) (l : List Bool) : MMC3 :=
  l.foldl MMC3.ppuA12Clock s

/-- k valid A12 rising edges, each preceded by 8 dots of A12 low. -/
def a12Pulses (k : Nat) : List Bool :=
  (List.replicate k (List.replicate 8 false ++ [true])).flatten

/-- APU state visible to a $4015 read, from apu.cpp lines 385-401:
channel length counters, DMC activity and the two IRQ flags. -/
structure ApuLite where
  pulse1Len : Nat
  pulse2Len : Nat
  triLen : Nat
  noiseLen : Nat
  dmcEnabled : Bool
  dmcBytesLeft : Nat
  frameIRQ : Bool
  dmcIRQ : Bool

/-- Embeds APU::cpuRead at $4015 (apu.cpp lines 385-401): assemble the
status bits; reading clears frameIRQ and dmcIRQ. -/
def ApuLite.read4015 (a : ApuLite) : Nat × ApuLite :=
  let s := (if 0 < a.pulse1Len then 0x01 else 0) |||
           (if 0 < a.pulse2Len then 0x02 else 0) |||
           (if 0 < a.triLen then 0x04 else 0) |||
           (if 0 < a.noiseLen then 0x08 else 0) |||
           (if a.dmcEnabled ∧ 0 < a.dmcBytesLeft then 0x10 else 0) |||
           (if a.frameIRQ then 0x40 else 0) |||
           (if a.dmcIRQ then 0x80 else 0)
  (s, { a with frameIRQ := false, dmcIRQ := false })

/-- Controller state, from input.h: shift register, strobe, live mask. -/
structure InputPad where
  shift1 : Nat
  strobe : Nat
  padState : Nat

/-- Embeds Input::read4016 (input.h): serial read of the shift register,
shifting in ones while strobe is low; bit 6 of the result is set. -/
def InputPad.read4016 (p : InputPad) : Nat × InputPad :=
  let bit := p.shift1 % 2
  let p1 := if p.strobe = 0 then { p with shift1 := (p.shift1 / 2) ||| 0x80 }
            else p
  (bit ||| 0x40, p1)

/-- Session state seen by the Bus (bus.cpp): the 2 KiB internal RAM, the
PPU, the APU and controller as far as reads touch them, the CPU, and the
cartridge CPU space as a pure byte map (MapperNROM::cpuRead and
MapperMMC3::cpuRead do not mutate mapper state). -/
structure NES where
  ram : Nat → Nat
  ppu : PPU
  apu : ApuLite
  pad : InputPad
  cpu : CPU
  cartCpu : Nat → Nat

/-- Embeds Bus::cpuRead (bus.cpp lines 13-39), with the same branch
order; every branch returns a uint8_t, so byte maps are masked. -/
def NES.cpuRead (n : NES) (a : Nat) : Nat × NES :=
  if a < 0x2000 then (n.ram (a % 0x800) % 0x100, n)
  else if a < 0x4000 then
    let rp := n.ppu.cpuReadRegister (0x2000 + a % 8)
    (rp.1 % 0x100, { n with ppu := rp.2 })
  else if a = 0x4015 then
    let ra := n.apu.read4015
    (ra.1, { n with apu := ra.2 })
  else if a = 0x4016 then
    let ri := n.pad.read4016
    (ri.1, { n with pad := ri.2 })
  else if a = 0x4017 then (0x40, n)
  else if 0x4000 ≤ a ∧ a ≤ 0x4017 then (0, n)
  else if 0x4020 ≤ a then (n.cartCpu a % 0x100, n)
  else (0, n)

/-- One iteration of the OAM DMA loop run by the $4014 branch of
Bus::cpuWrite: the body of PPU::oamDMA with the `cpuRead(base + i)` fetch
callback written in state-passing style (the callback re-enters the bus,
so the loop lives at session level here). -/
def NES.oamDMAStep (base start : Nat) (st : NES) (i : Nat) : NES :=
  let rb := st.cpuRead (base + i)
  { rb.2 with
    ppu := { rb.2.ppu with
             oam := upd rb.2.ppu.oam ((start + i) % 0x100) rb.1 } }

/-- Embeds the $4014 (OAM DMA) branch of Bus::cpuWrite (bus.cpp lines
47-55): add 513 stall cycles plus 1 when the CPU cycle counter is odd,
then copy 256 bytes fetched from CPU page value<<8 into OAM starting at
OAMADDR. -/
def NES.write4014 (n : NES) (v : Nat) : NES :=
  let base := (v % 0x100) * 0x100
  let odd := n.cpu.cycles % 2 = 1
  let n1 := { n with cpu := { n.cpu with
    dma_stall_cycles := n.cpu.dma_stall_cycles + 513 +
      (if odd then 1 else 0) } }
  let start := n1.ppu.OAMADDR
  (List.range 256).foldl (NES.oamDMAStep base start) n1

/-- Observable events inside one vblank period: an NMI poll after a PPU
tick (NES::runFrame, nes.cpp lines 58-63), a CPU read of $2002 and a CPU
write of $2000 (PPU register handlers).  Between (241,1) and the
pre-render line PPU::tick does not touch nmi_occurred or PPUCTRL, so
these are the only operations that move the NMI edge detector. -/
inductive VbEvent where
  | poll
  | read2002
  | write2000 (v : Nat)

/-- PPU plus the session-level NMI edge detector state: nmiLinePrev from
NES::runFrame and a count of posted cpu->nmi() edges. -/
structure VbState where
  ppu : PPU
  nmiLinePrev : Bool
  posts : Nat

/-- One event step: the poll embeds nes.cpp lines 59-63 (post an NMI
exactly when nmi_occurred && nmi_output rises from the previous poll);
register accesses run the PPU handlers. -/
def vbStep (st : VbState) (e : VbEvent) : VbState :=
  match e with
  | .poll =>
      let lvl := st.ppu.nmi_occurred && st.ppu.nmiOutput
      { st with posts := st.posts + (if lvl && !st.nmiLinePrev then 1 else 0),
                nmiLinePrev := lvl }
  | .read2002 => { st with ppu := (st.ppu.cpuReadRegister 0x2002).2 }
  | .write2000 v => { st with ppu := st.ppu.cpuWriteRegister 0x2000 v }

/-- Run a sequence of vblank-period events. -/
def vbRun (st : VbState) (es : List VbEvent) : VbState := es.foldl vbStep st

/-- An event does not lower PPUCTRL bit 7: true for polls and $2002
reads, and for $2000 writes whose value keeps bit 7 set. -/
def keepsNmiOutput : VbEvent → Bool
  | .write2000 v => v &&& 0x80 != 0
  | _ => true

/-- Invariant of the vblank edge detector used for the at-most-one-NMI
argument: at most one post so far; a remembered high line implies a post
happened; one post with a low remembered line implies vblank was already
acknowledged; any post implies NMI output is (still) enabled. -/
def VbInv (st : VbState) : Prop :=
  st.posts ≤ 1 ∧ (st.nmiLinePrev = true → 1 ≤ st.posts) ∧
  (st.posts = 1 ∧ st.nmiLinePrev = false → st.ppu.nmi_occurred = false) ∧
  (1 ≤ st.posts → st.ppu.nmiOutput = true)

/-- A PPU state with all registers and memories zeroed (power-on style
values for the fields the claims read). -/
def ppu0 : PPU where
  vram := fun _ => 0
  oam := fun _ => 0
  secOAM := fun _ => 0
  secCount := 0
  palette := fun _ => 0
  PPUCTRL := 0
  PPUMASK := 0
  PPUSTATUS := 0
  OAMADDR := 0
  v := 0
  t := 0
  fineX := 0
  addrLatch := false
  vramReadBuffer := 0
  scanline := 0
  dot := 0
  frame_odd := false
  nmi_occurred := false
  cartChr := fun _ => 0
  chrIsRAM := false
  mir := 0

/-- A CPU state with the cpu.h initializers (S=$FD, P=$24, PC=$C000). -/
def cpu0 : CPU where
  A := 0
  X := 0
  Y := 0
  S := 0xFD
  P := 0x24
  PC := 0xC000
  cycles := 0
  pending_nmi := false
  pending_irq := false
  irq_delay := 0
  dma_stall_cycles := 0

/-- An APU state with silent channels and no pending IRQs. -/
def apu0 : ApuLite where
  pulse1Len := 0
  pulse2Len := 0
  triLen := 0
  noiseLen := 0
  dmcEnabled := false
  dmcBytesLeft := 0
  frameIRQ := false
  dmcIRQ := false

/-- A controller state with nothing latched. -/
def pad0 : InputPad where
  shift1 := 0
  strobe := 0
  padState := 0

/-- MMC3 power-on state per mapper_mmc3.h defaults and the constructor
(prgRAMEnable = $80), with one-byte PRG and CHR images. -/
def mmc3Zero : MMC3 where
  prg := [0]
  chr := [0]
  prgRAM := []
  chrIsRAM := false
  mir := 0
  bankSelect := 0
  bank := fun _ => 0
  prgMode := false
  chrMode := false
  prgRAMEnable := 0x80
  irqLatch := 0
  irqCounter := 0
  irqEnable := false
  irqReload := false
  irqFlag := false
  prevA12 := false
  a12LowCycles := 0
  sawRiseThisLine := false

/-- MMC3 state of the C5 scenario, reached from power-on through the
register interface: $C000 := 5 (latch), $C001 (reload pending), $E001
(IRQ enable). -/
def mmc3C5 : MMC3 :=
  ((mmc3Zero.cpuWrite 0xC000 5).cpuWrite 0xC001 0).cpuWrite 0xE001 0

/-- Session state used by witnesses: recognizable RAM and cartridge
contents, zeroed PPU/APU/controller/CPU. -/
def nes0 : NES where
  ram := fun a => (a + 3) % 0x100
  ppu := ppu0
  apu := apu0
  pad := pad0
  cpu := cpu0
  cartCpu := fun a => (a + 7) % 0x100

/-- PPU state for the C1 counterexample: v = $3F00 (palette space),
palette RAM all $20, the vertically mirrored nametable byte behind
$2F00 (VRAM index $700) set to $11. -/
def ppuC1 : PPU :=
  { ppu0 with v := 0x3F00, palette := (fun _ => 0x20),
              vram := upd (fun _ => 0) 0x700 0x11, mir := 1 }

/-- PPU state for the C3 evaluation: scanline 100 and primary OAM in
which sprites 0-7 have Y = 99 (exactly in range for 8-pixel sprites) and
sprites 8-63 have Y = 200 (out of range). -/
def ppuC3 : PPU :=
  { ppu0 with scanline := 100,
              oam := (fun j => if j % 4 = 0 then (if j < 32 then 99 else 200) else 0) }

/-- All-zero CPU memory view. -/
def memZero : Mem := fun _ => 0

/-- CPU state for the C2 evaluation: A = 0 while Z is clear (P = $24). -/
def cpuC2 : CPU := { cpu0 with A := 0, P := 0x24 }

/-- Memory holding the C6 boundary scenario: opcode $F0 at $80FE and
operand $02 at $80FF. -/
def mem6 : Mem :=
  fun a => if a = 0x80FE then 0xF0 else if a = 0x80FF then 0x02 else 0

/-- CPU state for the C6 scenario, at the point where CPU::step has
fetched the BEQ opcode at $80FE and advanced PC to the operand ($80FF);
P = $26 has Z set. -/
def cpu6 : CPU := { cpu0 with PC := 0x80FF, P := 0x26 }

/-- Memory holding the reset vector $34, $12 at $FFFC/$FFFD (the
6d72.nes boundary scenario). -/
def memReset : Mem :=
  fun a => if a = 0xFFFC then 0x34 else if a = 0xFFFD then 0x12 else 0

/-- Prior CPU state for the C4 counterexample: a pending one-instruction
IRQ suppression (irq_delay = 1). -/
def cpuC4 : CPU := { cpu0 with irq_delay := 1 }

/-- Vblank period start state for the C8 counterexample: NMI output
enabled, vblank just set at (241,1), detector line low, nothing posted. -/
def vbC8 : VbState where
  ppu := ({ ppu0 with PPUCTRL := 0x80 } : PPU).setVBlank
  nmiLinePrev := false
  posts := 0

/-- Event sequence for the C8 counterexample: a poll, a $2000 write
clearing bit 7, a poll, a $2000 write setting bit 7, a poll. -/
def vbC8Events : List VbEvent :=
  [VbEvent.poll, VbEvent.write2000 0, VbEvent.poll,
   VbEvent.write2000 0x80, VbEvent.poll]


/-- C1 counterexample: at ppuC1 (v = $3F00), the $2007 read refills the
read buffer with the palette byte $20 returned by ppuRead(v), not with
the nametable byte $11 at the mirror of v, v - $1000 = $2F00, refuting
the buffer-refill clause of the claim at this input. -/
theorem ppudata_buffer_refill_counterexample :
    (ppuC1.cpuReadRegister 0x2007).2.vramReadBuffer = 0x20 ∧
    ppuC1.ppuRead (ppuC1.v - 0x1000) = 0x11 ∧
    ¬ ((ppuC1.cpuReadRegister 0x2007).2.vramReadBuffer
        = ppuC1.ppuRead (ppuC1.v - 0x1000)) := by decide

/-- C1 (amended): for every PPU state, a $2007 read returns the previous
buffer contents except when (v & $3FFF) ≥ $3F00, in which case the
palette byte ppuRead(v) is returned directly; in every case the buffer
is refilled with ppuRead(v) (for palette addresses this is the palette
byte itself, not the nametable byte at v - $1000), and v is incremented
by 32 when PPUCTRL bit 2 is set, else by 1, modulo $8000. -/
theorem ppudata_buffered_read_amended (s : PPU) :
    (s.cpuReadRegister 0x2007).1
      = (if 0x3F00 ≤ s.v % 0x4000 then s.ppuRead s.v else s.vramReadBuffer)
  ∧ (s.cpuReadRegister 0x2007).2.vramReadBuffer = s.ppuRead s.v
  ∧ (s.cpuReadRegister 0x2007).2.v
      = (s.v + (if s.PPUCTRL &&& 0x04 ≠ 0 then 32 else 1)) % 0x8000 := by
  exact ⟨rfl, rfl, rfl⟩

/-- C2: evaluation at the failing input (A = 0, P = $24 with Z clear):
PHP followed by PLP yields P = $26, i.e. the Z flag (bit 1) was set from
the accumulator by the setZN8(A) call in the PLP case rather than
restored from the pushed status byte, so Z does not equal its value
before the PHP. -/
theorem php_plp_zn_overwritten_eval :
    cpuC2.P = 0x24 ∧ (cpuC2.phpThenPlp memZero).P = 0x26 ∧
    ¬ ((cpuC2.phpThenPlp memZero).P &&& 0x02 = cpuC2.P &&& 0x02) := by decide

/-- C3: evaluation at the failing input: a line with exactly 8 in-range
sprites (inRangeCount = 8, none out of the first eight slots) makes
evaluateSpritesWindow select all 8 and set the sprite-overflow bit
(PPUSTATUS bit 5), although the claim (and the comment in the code,
overflow when more than 8) requires the flag to stay clear here. -/
theorem sprite_overflow_exactly_eight_eval :
    inRangeCount ppuC3.oam ppuC3.scanline 8 = 8 ∧
    ppuC3.PPUSTATUS &&& 0x20 = 0 ∧
    ppuC3.evaluateSpritesWindow.secCount = 8 ∧
    ppuC3.evaluateSpritesWindow.PPUSTATUS &&& 0x20 = 0x20 := by decide

/-- C4 counterexample: from a prior state with irq_delay = 1 and the
reset vector $1234, CPU::reset sets PC correctly but leaves irq_delay at
1, refuting the claim that reset clears irq_delay for every prior
state. -/
theorem reset_irq_delay_counterexample :
    (cpuC4.reset memReset).PC = 0x1234 ∧
    (cpuC4.reset memReset).irq_delay = 1 ∧
    ¬ ((cpuC4.reset memReset).irq_delay = 0) := by decide

/-- C4 (amended): after CPU::reset, S = $FD, P = $24, PC is the
little-endian word at $FFFC/$FFFD, A = X = Y = 0, and cycles,
dma_stall_cycles, pending_nmi, pending_irq are cleared, for every prior
CPU state; irq_delay is left unchanged (reset does not touch it). -/
theorem reset_state_amended (c : CPU) (m : Mem) :
    (c.reset m).PC = rd8 m 0xFFFC ||| (rd8 m 0xFFFD <<< 8)
  ∧ (c.reset m).S = 0xFD ∧ (c.reset m).P = 0x24
  ∧ (c.reset m).cycles = 0 ∧ (c.reset m).dma_stall_cycles = 0
  ∧ (c.reset m).pending_nmi = false ∧ (c.reset m).pending_irq = false
  ∧ (c.reset m).A = 0 ∧ (c.reset m).X = 0 ∧ (c.reset m).Y = 0
  ∧ (c.reset m).irq_delay = c.irq_delay := by
  exact ⟨rfl, rfl, rfl, rfl, rfl, rfl, rfl, rfl, rfl, rfl, rfl⟩

/-- C5 counterexample: starting from the mmc3C5 register state
(latch = 5, counter = 0, reload pending, IRQ enabled), after 5 valid A12
rising edges (each preceded by 8 low dots) irq_pending is still false
and the counter stands at 1, refuting that exactly the 5th valid edge
raises the IRQ. -/
theorem mmc3_fifth_edge_counterexample :
    mmc3C5.irqLatch = 5 ∧ mmc3C5.irqCounter = 0 ∧
    mmc3C5.irqReload = true ∧ mmc3C5.irqEnable = true ∧
    (mmc3C5.runA12 (a12Pulses 5)).irqFlag = false ∧
    (mmc3C5.runA12 (a12Pulses 5)).irqCounter = 1 := by decide

/-- C5 (amended): in the same scenario it is exactly the 6th valid A12
rising edge that makes irq_pending true: edge 1 consumes the reload and
sets the counter to the latch value 5, edges 2 to 6 decrement it, and
the flag rises when the counter reaches 0 on edge 6 (edges 1 to 5 leave
the flag false). -/
theorem mmc3_sixth_edge_amended :
    (mmc3C5.runA12 (a12Pulses 1)).irqFlag = false ∧
    (mmc3C5.runA12 (a12Pulses 1)).irqCounter = 5 ∧
    (mmc3C5.runA12 (a12Pulses 2)).irqFlag = false ∧
    (mmc3C5.runA12 (a12Pulses 3)).irqFlag = false ∧
    (mmc3C5.runA12 (a12Pulses 4)).irqFlag = false ∧
    (mmc3C5.runA12 (a12Pulses 5)).irqFlag = false ∧
    (mmc3C5.runA12 (a12Pulses 6)).irqFlag = true ∧
    (mmc3C5.runA12 (a12Pulses 6)).irqCounter = 0 := by decide

/-- C6 counterexample: executing BEQ $F0 $02 located at $80FE with Z set
leaves PC = $8102 (not $8104) and costs 3 cycles (not 4): the
post-operand PC $8100 and the target $8102 are on the same page, so no
page-cross cycle is added. -/
theorem beq_scenario_counterexample :
    (cpu6.execBEQ mem6).1.PC = 0x8102 ∧ (cpu6.execBEQ mem6).2 = 3 ∧
    ¬ ((cpu6.execBEQ mem6).1.PC = 0x8104 ∧ (cpu6.execBEQ mem6).2 = 4) := by
  decide

/-- C6 (amended): in the boundary scenario of the spec the taken BEQ at $80FE
ends at PC = $8102 after 3 cycles; in general a branch costs 2 cycles
when not taken, and when taken costs 3 plus 1 more exactly when the
post-branch PC is on a different page ($FF00 mask) from the post-operand
PC. -/
theorem branch_cycles_amended :
    ((cpu6.execBEQ mem6).1.PC = 0x8102 ∧ (cpu6.execBEQ mem6).2 = 3)
  ∧ ∀ (c : CPU) (m : Mem) (cond : Bool),
      (c.branch m cond).2
        = (if cond then
             3 + (if ((c.PC + 1) % 0x10000) &&& 0xFF00 ≠
                    (((c.PC + 1) % 0x10000) + rd8 m c.PC +
                      (if 0x80 ≤ rd8 m c.PC then 0xFF00 else 0)) % 0x10000
                      &&& 0xFF00
                  then 1 else 0)
           else 2)
      ∧ (c.branch m cond).1.PC
        = (if cond then
             (((c.PC + 1) % 0x10000) + rd8 m c.PC +
               (if 0x80 ≤ rd8 m c.PC then 0xFF00 else 0)) % 0x10000
           else (c.PC + 1) % 0x10000) := by
  refine ⟨by decide, fun c m cond => ?_⟩
  cases cond <;> exact ⟨rfl, rfl⟩

/-- Unfolding of one step of the OAM DMA store loop. -/
theorem oamFoldN_succ (k : Nat) (f : Nat → Nat) (start : Nat)
    (fetch : Nat → Nat) :
    oamFoldN (k + 1) f start fetch
      = upd (oamFoldN k f start fetch) ((start + k) % 0x100) (fetch k) := by
  unfold oamFoldN
  rw [List.range_succ, List.foldl_append]
  rfl

/-- The byte stored by OAM DMA at slot (start + i) mod 256 survives the
remaining stores, because the 256 slot indices are pairwise distinct. -/
theorem oamFoldN_get (f : Nat → Nat) (start : Nat) (fetch : Nat → Nat)
    (k i : Nat) (hk : k ≤ 256) (hik : i < k) :
    oamFoldN k f start fetch ((start + i) % 0x100) = fetch i := by
  induction k with
  | zero => omega
  | succ n ih =>
    rw [oamFoldN_succ]
    by_cases hin : i = n
    · subst hin; simp [upd]
    · have hne : (start + i) % 0x100 ≠ (start + n) % 0x100 := by omega
      simp only [upd, hne, if_false]
      exact ih (by omega) (by omega)

/-- C9: for every PPU state and every fetch callback, OAM DMA writes
fetch(i) to OAM index (OAMADDR + i) mod 256 for all i in 0..255, leaves
OAMADDR unchanged, and modifies no PPU state other than the oam array
(the state equals itself with only the oam field replaced). -/
theorem oam_dma_frame_effect (s : PPU) (fetch : Nat → Nat) :
    (s.oamDMA fetch) = { s with oam := (s.oamDMA fetch).oam }
  ∧ (s.oamDMA fetch).OAMADDR = s.OAMADDR
  ∧ ∀ i, i < 256 →
      (s.oamDMA fetch).oam ((s.OAMADDR + i) % 0x100) = fetch i := by
  refine ⟨rfl, rfl, fun i hi => ?_⟩
  exact oamFoldN_get s.oam s.OAMADDR fetch 256 i (by omega) hi

/-- Witness for C9 at a concrete state: i = 3 is in range and OAM slot
(OAMADDR + 3) mod 256 holds fetch(3) = 4 after the DMA. -/
theorem oam_dma_frame_effect_witness :
    3 < 256 ∧
    (ppu0.oamDMA (fun i => i + 1)).oam ((ppu0.OAMADDR + 3) % 0x100) = 4 :=
  ⟨by decide, (oam_dma_frame_effect ppu0 (fun i => i + 1)).2.2 3 (by decide)⟩

/-- The prgBankAddr helper stays below the PRG size whenever the PRG
image is nonempty, for arbitrary bank and offset values. -/
theorem prgBankAddr_lt (prg : List Nat) (bank off : Nat)
    (hp : 0 < prg.length) : prgBankAddr prg bank off < prg.length := by
  unfold prgBankAddr
  rw [if_neg (by omega)]
  exact Nat.mod_lt _ hp

/-- C10: for every MMC3 state (arbitrary, even out-of-range, bank
registers, bank select and modes), every CPU address in $8000-$FFFF and
every PPU address in $0000-$1FFF, the byte indices computed by
MapperMMC3::cpuRead (prgIndex) and by MapperMMC3::ppuRead/ppuWrite
(chrIndex) are reduced modulo the image sizes, so with nonempty PRG and
CHR images every access is in bounds and the operations are total. -/
theorem mmc3_index_bounds (s : MMC3) (a : Nat) :
    (0x8000 ≤ a → 0 < s.prg.length → s.prgIndex a < s.prg.length)
  ∧ (a < 0x2000 → 0 < s.chr.length → s.chrIndex a < s.chr.length) := by
  constructor
  · intro _ hp
    unfold MMC3.prgIndex
    split_ifs <;> exact prgBankAddr_lt _ _ _ hp
  · intro _ hc
    unfold MMC3.chrIndex
    split_ifs <;> exact Nat.mod_lt _ hc

/-- Witness for C10 at the one-byte power-on image: the PRG index for
$8000 and the CHR index for $0000 are both in bounds. -/
theorem mmc3_index_bounds_witness :
    (0x8000 ≤ 0x8000 ∧ 0 < mmc3Zero.prg.length ∧
      mmc3Zero.prgIndex 0x8000 < mmc3Zero.prg.length) ∧
    ((0 : Nat) < 0x2000 ∧ 0 < mmc3Zero.chr.length ∧
      mmc3Zero.chrIndex 0 < mmc3Zero.chr.length) :=
  ⟨⟨by decide, by decide,
    (mmc3_index_bounds mmc3Zero 0x8000).1 (by decide) (by decide)⟩,
   ⟨by decide, by decide,
    (mmc3_index_bounds mmc3Zero 0).2 (by decide) (by decide)⟩⟩

/-- Reading $2002 clears nmi_occurred (PPU::cpuReadRegister case 2). -/
theorem read2002_nmi_occurred (p : PPU) :
    ((p.cpuReadRegister 0x2002).2).nmi_occurred = false := rfl

/-- Reading $2002 does not touch PPUCTRL. -/
theorem read2002_PPUCTRL (p : PPU) :
    ((p.cpuReadRegister 0x2002).2).PPUCTRL = p.PPUCTRL := rfl

/-- Writing $2000 stores the value into PPUCTRL. -/
theorem write2000_PPUCTRL (p : PPU) (v : Nat) :
    (p.cpuWriteRegister 0x2000 v).PPUCTRL = v := rfl

/-- Writing $2000 does not touch nmi_occurred. -/
theorem write2000_nmi_occurred (p : PPU) (v : Nat) :
    (p.cpuWriteRegister 0x2000 v).nmi_occurred = p.nmi_occurred := rfl

/-- One vblank-period event preserves the edge-detector invariant,
provided the event does not lower PPUCTRL bit 7. -/
theorem vbStep_preserves_inv (st : VbState) (e : VbEvent)
    (hke : keepsNmiOutput e = true) (hinv : VbInv st) :
    VbInv (vbStep st e) := by
  obtain ⟨h1, h2, h3, h4⟩ := hinv
  cases e with
  | poll =>
    by_cases hocc : st.ppu.nmi_occurred = true <;>
      by_cases hout : st.ppu.nmiOutput = true <;>
        by_cases hprev : st.nmiLinePrev = true <;>
          (simp_all [VbInv, vbStep]; try omega)
  | read2002 =>
    refine ⟨h1, h2, fun _ => read2002_nmi_occurred st.ppu, fun hp => ?_⟩
    show PPU.nmiOutput ((st.ppu.cpuReadRegister 0x2002).2) = true
    simp only [PPU.nmiOutput, read2002_PPUCTRL]
    exact h4 hp
  | write2000 v =>
    refine ⟨h1, h2, fun hp => ?_, fun _ => ?_⟩
    · show (st.ppu.cpuWriteRegister 0x2000 v).nmi_occurred = false
      rw [write2000_nmi_occurred]
      exact h3 hp
    · show PPU.nmiOutput (st.ppu.cpuWriteRegister 0x2000 v) = true
      simp only [PPU.nmiOutput, write2000_PPUCTRL]
      simpa [keepsNmiOutput] using hke

/-- The invariant is preserved along any event sequence whose $2000
writes keep PPUCTRL bit 7 set. -/
theorem vbRun_preserves_inv (st : VbState) (es : List VbEvent)
    (hes : ∀ e ∈ es, keepsNmiOutput e = true) (hinv : VbInv st) :
    VbInv (vbRun st es) := by
  induction es generalizing st with
  | nil => exact hinv
  | cons e t ih =>
    exact ih (vbStep st e) (fun x hx => hes x (List.mem_cons_of_mem _ hx))
      (vbStep_preserves_inv st e (hes e (List.mem_cons_self _ _)) hinv)

/-- C8 counterexample: from the start of a vblank (vblank set, NMI
output enabled, detector line low), the event sequence poll, write $2000
with bit 7 clear, poll, write $2000 with bit 7 set, poll posts two NMIs
inside one vblank period, refuting the at-most-one-NMI-per-vblank claim
for arbitrary $2000/$2002 access sequences. -/
theorem nmi_double_post_counterexample :
    (vbRun vbC8 vbC8Events).posts = 2 ∧
    ¬ ((vbRun vbC8 vbC8Events).posts ≤ 1) := by decide

/-- C8 (amended): an NMI is posted only on a low-to-high transition of
nmi_occurred && nmi_output (second conjunct, for every step), and at
most one NMI is posted during a vblank period provided every $2000
write during the period keeps bit 7 (NMI enable) set; toggling bit 7
off and on can post again, as the counterexample shows. -/
theorem nmi_single_post_amended (p : PPU) (es : List VbEvent)
    (hes : ∀ e ∈ es, keepsNmiOutput e = true) :
    (vbRun { ppu := p.setVBlank, nmiLinePrev := false, posts := 0 } es).posts
      ≤ 1
  ∧ ∀ (st : VbState) (e : VbEvent), st.posts < (vbStep st e).posts →
      (st.ppu.nmi_occurred && st.ppu.nmiOutput) = true ∧
      st.nmiLinePrev = false := by
  constructor
  · have h0 : VbInv { ppu := p.setVBlank, nmiLinePrev := false, posts := 0 } := by
      refine ⟨?_, ?_, ?_, ?_⟩ <;> simp
    exact (vbRun_preserves_inv _ es hes h0).1
  · intro st e hlt
    cases e with
    | poll =>
      by_cases hc : ((st.ppu.nmi_occurred && st.ppu.nmiOutput) &&
          !st.nmiLinePrev) = true
      · have hsplit := (Bool.and_eq_true _ _).mp hc
        refine ⟨hsplit.1, ?_⟩
        have := hsplit.2
        simpa using this
      · exfalso
        simp [vbStep, hc] at hlt
    | read2002 => exact absurd hlt (by simp [vbStep])
    | write2000 v => exact absurd hlt (by simp [vbStep])

/-- Witness for C8 (amended) on a concrete trace that reads $2002 and
polls twice inside one vblank: every event keeps NMI output, and at
most one NMI is posted. -/
theorem nmi_single_post_amended_witness :
    (∀ e ∈ [VbEvent.poll, VbEvent.read2002, VbEvent.poll],
      keepsNmiOutput e = true) ∧
    (vbRun { ppu := PPU.setVBlank { ppu0 with PPUCTRL := 0x80 },
             nmiLinePrev := false, posts := 0 }
      [VbEvent.poll, VbEvent.read2002, VbEvent.poll]).posts ≤ 1 :=
  ⟨by decide,
   (nmi_single_post_amended { ppu0 with PPUCTRL := 0x80 }
      [VbEvent.poll, VbEvent.read2002, VbEvent.poll] (by decide)).1⟩

/-- Bus reads never modify the CPU component of the session. -/
theorem cpuRead_cpu (st : NES) (a : Nat) : (st.cpuRead a).2.cpu = st.cpu := by
  unfold NES.cpuRead
  split_ifs <;> rfl

/-- One OAM DMA loop iteration never modifies the CPU component. -/
theorem oamDMAStep_cpu (base start : Nat) (st : NES) (i : Nat) :
    (NES.oamDMAStep base start st i).cpu = st.cpu := by
  unfold NES.oamDMAStep
  exact cpuRead_cpu st (base + i)

/-- The whole OAM DMA loop never modifies the CPU component. -/
theorem dmaFold_cpu (base start : Nat) (l : List Nat) (st : NES) :
    (l.foldl (NES.oamDMAStep base start) st).cpu = st.cpu := by
  induction l generalizing st with
  | nil => rfl
  | cons a t ih => rw [List.foldl_cons, ih, oamDMAStep_cpu]

/-- A bus read of internal RAM (address below $2000) returns the
mirrored RAM byte and leaves the session unchanged. -/
theorem cpuRead_ram (st : NES) (a : Nat) (h : a < 0x2000) :
    st.cpuRead a = (st.ram (a % 0x800) % 0x100, st) := by
  unfold NES.cpuRead
  rw [if_pos h]

/-- A bus read of cartridge space at or above $4100 returns the
cartridge byte and leaves the session unchanged. -/
theorem cpuRead_cart (st : NES) (a : Nat) (h : 0x4100 ≤ a) :
    st.cpuRead a = (st.cartCpu a % 0x100, st) := by
  unfold NES.cpuRead
  rw [if_neg (by omega), if_neg (by omega), if_neg (by omega),
      if_neg (by omega), if_neg (by omega), if_neg (by omega),
      if_pos (by omega)]

/-- When every read of the DMA source page returns g(i) and leaves the
session unchanged (for any OAM contents accumulated so far), the
session-level OAM DMA loop only rewrites the OAM array, storing the
bytes g(i) at slots (start + i) mod 256. -/
theorem dmaFold_pure (s1 : NES) (base start : Nat) (g : Nat → Nat)
    (hg : ∀ (f : Nat → Nat) (i : Nat), i < 256 →
      NES.cpuRead { s1 with ppu := { s1.ppu with oam := f } } (base + i)
        = (g i, { s1 with ppu := { s1.ppu with oam := f } })) :
    ∀ k, k ≤ 256 →
      (List.range k).foldl (NES.oamDMAStep base start) s1
        = { s1 with ppu := { s1.ppu with
              oam := oamFoldN k s1.ppu.oam start g } } := by
  intro k
  induction k with
  | zero => intro _; rfl
  | succ n ih =>
    intro hn
    rw [List.range_succ, List.foldl_append, ih (by omega),
        List.foldl_cons, List.foldl_nil, oamFoldN_succ]
    simp only [NES.oamDMAStep]
    rw [hg (oamFoldN n s1.ppu.oam start g) n (by omega)]

/-- Unfolding of the $4014 write: stall update followed by the 256-step
DMA loop. -/
theorem write4014_eq (n : NES) (v : Nat) :
    n.write4014 v = (List.range 256).foldl
      (NES.oamDMAStep ((v % 0x100) * 0x100) n.ppu.OAMADDR)
      { n with cpu := { n.cpu with dma_stall_cycles :=
          n.cpu.dma_stall_cycles + 513 +
            (if n.cpu.cycles % 2 = 1 then 1 else 0) } } := rfl

/-- C7: a CPU write of p to $4014 adds exactly 513 CPU stall cycles when
the CPU cycle counter is even at the trigger instant and exactly 514
when it is odd (first conjunct); while stalled, each CPU step consumes 1
cycle, decrements the stall counter and leaves PC and the registers
untouched, i.e. no instruction is fetched (second conjunct); and the
write copies the 256 bytes of CPU page p<<8, as read on the CPU bus,
into PPU OAM at slots (OAMADDR + i) mod 256 (third conjunct, stated for
source pages whose reads are side-effect free: RAM pages p < $20 and
cartridge pages $41 ≤ p ≤ $FF). -/
theorem oam_dma_stall_and_copy (n : NES) (p : Nat) :
    (n.write4014 p).cpu.dma_stall_cycles
      = n.cpu.dma_stall_cycles + 513 +
          (if n.cpu.cycles % 2 = 1 then 1 else 0)
  ∧ (∀ c : CPU, c.stepStall.2 = 1 ∧ c.stepStall.1.cycles = c.cycles + 1
      ∧ c.stepStall.1.PC = c.PC
      ∧ c.stepStall.1.dma_stall_cycles = c.dma_stall_cycles - 1
      ∧ c.stepStall.1.A = c.A ∧ c.stepStall.1.P = c.P ∧ c.stepStall.1.S = c.S)
  ∧ ((p < 0x20 ∨ (0x41 ≤ p ∧ p ≤ 0xFF)) → ∀ i, i < 256 →
      (n.write4014 p).ppu.oam ((n.ppu.OAMADDR + i) % 0x100)
        = (n.cpuRead ((p % 0x100) * 0x100 + i)).1) := by
  refine ⟨?_, fun c => ⟨rfl, rfl, rfl, rfl, rfl, rfl, rfl⟩, ?_⟩
  · rw [write4014_eq, dmaFold_cpu]
  · rintro (hp | ⟨hp1, hp2⟩) i hi
    · rw [write4014_eq,
        dmaFold_pure _ _ _
          (fun j => n.ram (((p % 0x100) * 0x100 + j) % 0x800) % 0x100)
          (fun f j hj => by rw [cpuRead_ram _ _ (by omega)])
          256 (by omega)]
      show oamFoldN 256 n.ppu.oam n.ppu.OAMADDR
          (fun j => n.ram (((p % 0x100) * 0x100 + j) % 0x800) % 0x100)
          ((n.ppu.OAMADDR + i) % 0x100) = _
      rw [oamFoldN_get _ _ _ 256 i (by omega) hi,
          cpuRead_ram _ _ (by omega)]
    · rw [write4014_eq,
        dmaFold_pure _ _ _
          (fun j => n.cartCpu ((p % 0x100) * 0x100 + j) % 0x100)
          (fun f j hj => by rw [cpuRead_cart _ _ (by omega)])
          256 (by omega)]
      show oamFoldN 256 n.ppu.oam n.ppu.OAMADDR
          (fun j => n.cartCpu ((p % 0x100) * 0x100 + j) % 0x100)
          ((n.ppu.OAMADDR + i) % 0x100) = _
      rw [oamFoldN_get _ _ _ 256 i (by omega) hi,
          cpuRead_cart _ _ (by omega)]

/-- Witness for C7 at the concrete session nes0 with p = 2 (a RAM page)
and i = 0: the page hypothesis and index bound hold, and OAM slot
OAMADDR + 0 holds the first byte of page $0200 as read on the bus. -/
theorem oam_dma_stall_and_copy_witness :
    ((2 : Nat) < 0x20 ∨ (0x41 ≤ 2 ∧ 2 ≤ 0xFF)) ∧ (0 : Nat) < 256 ∧
    (nes0.write4014 2).ppu.oam ((nes0.ppu.OAMADDR + 0) % 0x100)
      = (nes0.cpuRead ((2 % 0x100) * 0x100 + 0)).1 :=
  ⟨Or.inl (by decide), by decide,
   (oam_dma_stall_and_copy nes0 2).2.2 (Or.inl (by decide)) 0 (by decide)⟩
